import Mathlib

/-!
Shallow embedding of the Kaprekar utilities (kaprekar_all.py and kaprekar.py).
A 4-digit numeral string is modelled as a big-endian list of digit values
(`List Nat`, each entry `< 10`); decimal digit characters compare in the same
order as their numeric values, so sorting the string is sorting the digit
list, `int(s)` is the base-10 value of the list, and `str(n).zfill(4)` is the
digit list of `n` left-padded with zeros to length 4.
-/

/-- Value of a big-endian digit list in base 10: the embedding of Python
`int(s)` applied to a string of decimal digit characters. -/
def digitsToNat (ds : List Nat) : Nat := ds.foldl (fun a d => 10 * a + d) 0

/-- Fuel-indexed decimal rendering of a natural number, most significant digit
first; the fuel only bounds the recursion and `natToDigits` always supplies
enough of it. -/
def natToDigitsAux (fuel : Nat) : Nat → List Nat → List Nat :=
  Nat.rec (motive := fun _ => Nat → List Nat → List Nat) (fun _ acc => acc)
    (fun _ ih n acc => if n < 10 then n :: acc else ih (n / 10) (n % 10 :: acc)) fuel

/-- Decimal digits of a natural number, most significant first: the embedding
of Python `str(n)` for a non-negative integer (`natToDigits 0 = [0]`, no
leading zeros otherwise). -/
def natToDigits (n : Nat) : List Nat := natToDigitsAux (n + 1) n []

/-- Left-pad a digit list with zeros to length 4, the embedding of Python
`str.zfill(4)` (lists already of length at least 4 are returned unchanged). -/
def zfill4 (ds : List Nat) : List Nat := List.replicate (4 - ds.length) 0 ++ ds

/-- Stable ascending sort of the digits: Python `sorted(num_str)`. -/
def sortAsc (ds : List Nat) : List Nat := List.insertionSort (· ≤ ·) ds

/-- Descending sort of the digits: Python `sorted(num_str, reverse=True)`. -/
def sortDesc (ds : List Nat) : List Nat := List.insertionSort (· ≥ ·) ds

/-- Kaprekar's constant "6174" as a digit list (`KAPREKAR_CONST` in
kaprekar_all.py). -/
def KAPREKAR_CONST : List Nat := [6, 1, 7, 4]

/-- The all-zero numeral "0000". -/
def ZEROS : List Nat := [0, 0, 0, 0]

/-- One Kaprekar operation on a 4-digit numeral: embedding of `kaprekar_once`
in kaprekar_all.py (zero-fill the input, sort descending and ascending, take
the difference of the two values, render it and zero-fill to 4 digits). -/
def kaprekar_once (ds : List Nat) : List Nat :=
  zfill4 (natToDigits (digitsToNat (sortDesc (zfill4 ds)) - digitsToNat (sortAsc (zfill4 ds))))

/-- True iff all digits of the zero-filled numeral are identical: embedding of
`is_repdigit` in kaprekar_all.py (`len(set(s)) == 1` is "the list of distinct
digits has length 1"). -/
def is_repdigit (ds : List Nat) : Bool := (zfill4 ds).dedup.length == 1

/-- The while loop of `steps_to_kaprekar`, structured on the remaining
iteration budget `max_iter - steps`: at each loop head, exit with the step
count if the numeral is the constant; otherwise, if the budget is spent, exit
with `none`; otherwise perform one Kaprekar step, returning `none` on reaching
"0000". -/
def stepsLoop : Nat → List Nat → Nat → Option Nat
  | 0, s, steps => if s = KAPREKAR_CONST then some steps else none
  | fuel + 1, s, steps =>
    if s = KAPREKAR_CONST then some steps
    else
      if kaprekar_once s = ZEROS then none
      else stepsLoop fuel (kaprekar_once s) (steps + 1)

/-- Embedding of `steps_to_kaprekar` in kaprekar_all.py: zero-fill the input,
reject repdigits with `none`, otherwise iterate `kaprekar_once` up to
`max_iter` times, returning the number of steps needed to reach "6174",
or `none` on reaching "0000" or exhausting the cap. -/
def steps_to_kaprekar (start_num : List Nat) (max_iter : Nat := 50) : Option Nat :=
  if is_repdigit (zfill4 start_num) then none
  else stepsLoop max_iter (zfill4 start_num) 0

/-- The loop of `compute_all` in kaprekar_all.py, processing the integers
`n, n+1, ...` while the fuel lasts (`compute_all` starts it at `n = 0` with
fuel 10000): repdigits are skipped, every other numeral contributes its step
count to the first list or, on `none`, its digit string to the second list,
in ascending order of `n`. -/
def computeAllAux : Nat → Nat → List Nat × List (List Nat)
  | 0, _ => ([], [])
  | fuel + 1, n =>
    if is_repdigit (zfill4 (natToDigits n)) then computeAllAux fuel (n + 1)
    else
      match steps_to_kaprekar (zfill4 (natToDigits n)) with
      | none => ((computeAllAux fuel (n + 1)).1,
          zfill4 (natToDigits n) :: (computeAllAux fuel (n + 1)).2)
      | some st => (st :: (computeAllAux fuel (n + 1)).1, (computeAllAux fuel (n + 1)).2)

/-- Embedding of `compute_all` in kaprekar_all.py: step counts and failures
over all numerals 0000–9999 in ascending order, repdigits excluded. -/
def compute_all : List Nat × List (List Nat) := computeAllAux 10000 0

/-- Embedding of `kaprekar` in kaprekar.py: the integer difference between the
descending- and ascending-sorted renderings of the numeral. -/
def kaprekar (num : List Nat) : Nat :=
  digitsToNat (sortDesc num) - digitsToNat (sortAsc num)

/-- One trip around the main while loop of kaprekar.py:
`num = str(kaprekar(num)).zfill(4)`. -/
def loopStep (num : List Nat) : List Nat := zfill4 (natToDigits (kaprekar num))

/-- Fuel-bounded run of the (unbounded) main while loop of kaprekar.py,
returning the step count reported on reaching "6174", or `none` if the fuel
runs out before the loop condition fails. -/
def mainLoop : Nat → List Nat → Nat → Option Nat
  | 0, num, step => if num = KAPREKAR_CONST then some step else none
  | fuel + 1, num, step =>
    if num = KAPREKAR_CONST then some step
    else mainLoop fuel (loopStep num) (step + 1)

/-- Embedding of the input validation of kaprekar.py
(`len(num) != 4 or len(set(num)) == 1 or not num.isdigit()` rejects): a digit
list is accepted when it has length 4, all entries are decimal digits, and not
all entries are equal. -/
def validInput (num : List Nat) : Bool :=
  num.length == 4 && num.all (fun x => decide (x < 10)) && !(num.dedup.length == 1)

/-- Difference of the two digit permutations as the spec describes it:
interpret the descending-sorted permutation and the ascending-sorted
permutation as base-10 integers and subtract the smaller from the larger.
Little-endian reading by `Nat.ofDigits` of the ascending big-endian list is
the descending permutation's value, and of its reverse the ascending one's. -/
def specDiff (ds : List Nat) : Nat :=
  Nat.ofDigits 10 (List.insertionSort (· ≤ ·) ds) -
    Nat.ofDigits 10 (List.insertionSort (· ≤ ·) ds).reverse

/-- Specification-side description of the Kaprekar step, written from the
spec's words: form the descending- and ascending-sorted permutations of the 4
digit characters, interpret both as base-10 integers, compute largest minus
smallest, and return the difference re-padded to exactly 4 digit characters
(left-zero-padded). -/
def kaprekarStepSpec (ds : List Nat) : List Nat :=
  [specDiff ds / 1000 % 10, specDiff ds / 100 % 10, specDiff ds / 10 % 10, specDiff ds % 10]

/-- Boolean check, over one digit tuple, that `kaprekar_once` agrees with the
spec-side description of the step. -/
def chkStep (a b c d : Nat) : Bool :=
  kaprekar_once [a, b, c, d] == kaprekarStepSpec [a, b, c, d]

/-- Boolean check, over one digit tuple, that the output of `kaprekar_once` is
a canonical 4-digit numeral with value at most 9999 and that the descending
value dominates the ascending one. -/
def chkShape (a b c d : Nat) : Bool :=
  ((kaprekar_once [a, b, c, d]).length == 4)
    && (kaprekar_once [a, b, c, d]).all (fun x => decide (x < 10))
    && decide (digitsToNat (kaprekar_once [a, b, c, d]) ≤ 9999)
    && decide (digitsToNat (sortAsc (zfill4 [a, b, c, d]))
        ≤ digitsToNat (sortDesc (zfill4 [a, b, c, d])))

/-- Boolean check, over one digit tuple, that on non-repdigits the Kaprekar
step strictly decreases below the maximal digit permutation. -/
def chkDecrease (a b c d : Nat) : Bool :=
  is_repdigit [a, b, c, d]
    || decide (digitsToNat (kaprekar_once [a, b, c, d])
        < digitsToNat (sortDesc (zfill4 [a, b, c, d])))

/-- Certificate set: the numerals reachable by one Kaprekar step that reach
"6174" in at most 1 further step. -/
def D1 : List (List Nat) := [[4, 1, 7, 6], [6, 1, 7, 4], [8, 3, 5, 2], [8, 5, 3, 2]]

/-- Certificate set: reachable numerals that reach "6174" in at most 2 more
steps. -/
def D2 : List (List Nat) :=
  [[2, 0, 8, 8], [3, 0, 8, 7], [4, 1, 7, 6], [4, 2, 6, 6], [6, 1, 7, 4], [6, 2, 6, 4],
   [7, 0, 8, 3], [7, 3, 5, 3], [7, 5, 3, 3], [8, 0, 8, 2], [8, 3, 5, 2], [8, 5, 3, 2],
   [9, 1, 7, 1], [9, 2, 6, 1], [9, 6, 2, 1], [9, 7, 1, 1]]

/-- Certificate set: reachable numerals that reach "6174" in at most 3 more
steps. -/
def D3 : List (List Nat) :=
  [[1, 0, 8, 9], [1, 9, 9, 8], [2, 0, 8, 8], [3, 0, 8, 7], [3, 9, 9, 6], [4, 1, 7, 6],
   [4, 2, 6, 6], [4, 3, 5, 6], [6, 1, 7, 4], [6, 2, 6, 4], [6, 3, 5, 4], [6, 5, 3, 4],
   [6, 9, 9, 3], [7, 0, 8, 3], [7, 3, 5, 3], [7, 5, 3, 3], [8, 0, 8, 2], [8, 3, 5, 2],
   [8, 5, 3, 2], [8, 9, 9, 1], [9, 0, 8, 1], [9, 1, 7, 1], [9, 2, 6, 1], [9, 6, 2, 1],
   [9, 7, 1, 1], [9, 8, 0, 1]]

/-- Certificate set: reachable numerals that reach "6174" in at most 4 more
steps. -/
def D4 : List (List Nat) :=
  [[0, 9, 9, 9], [1, 0, 8, 9], [1, 9, 9, 8], [2, 0, 8, 8], [3, 0, 8, 7], [3, 1, 7, 7],
   [3, 9, 9, 6], [4, 1, 7, 6], [4, 2, 6, 6], [4, 3, 5, 6], [5, 2, 6, 5], [5, 3, 5, 5],
   [5, 4, 4, 5], [6, 1, 7, 4], [6, 2, 6, 4], [6, 3, 5, 4], [6, 4, 4, 4], [6, 5, 3, 4],
   [6, 9, 9, 3], [7, 0, 8, 3], [7, 1, 7, 3], [7, 3, 5, 3], [7, 4, 4, 3], [7, 5, 3, 3],
   [8, 0, 8, 2], [8, 2, 6, 2], [8, 3, 5, 2], [8, 5, 3, 2], [8, 6, 2, 2], [8, 9, 9, 1],
   [9, 0, 8, 1], [9, 1, 7, 1], [9, 2, 6, 1], [9, 6, 2, 1], [9, 7, 1, 1], [9, 8, 0, 1]]

/-- Certificate set: reachable numerals that reach "6174" in at most 5 more
steps. -/
def D5 : List (List Nat) :=
  [[0, 9, 9, 9], [1, 0, 8, 9], [1, 9, 9, 8], [2, 0, 8, 8], [2, 1, 7, 8], [2, 9, 9, 7],
   [3, 0, 8, 7], [3, 1, 7, 7], [3, 2, 6, 7], [3, 9, 9, 6], [4, 1, 7, 6], [4, 2, 6, 6],
   [4, 3, 5, 6], [4, 9, 9, 5], [5, 2, 6, 5], [5, 3, 5, 5], [5, 4, 4, 5], [5, 9, 9, 4],
   [6, 1, 7, 4], [6, 2, 6, 4], [6, 3, 5, 4], [6, 4, 4, 4], [6, 5, 3, 4], [6, 9, 9, 3],
   [7, 0, 8, 3], [7, 1, 7, 3], [7, 2, 6, 3], [7, 3, 5, 3], [7, 4, 4, 3], [7, 5, 3, 3],
   [7, 6, 2, 3], [7, 9, 9, 2], [8, 0, 8, 2], [8, 1, 7, 2], [8, 2, 6, 2], [8, 3, 5, 2],
   [8, 5, 3, 2], [8, 6, 2, 2], [8, 7, 1, 2], [8, 9, 9, 1], [9, 0, 8, 1], [9, 1, 7, 1],
   [9, 2, 6, 1], [9, 6, 2, 1], [9, 7, 1, 1], [9, 8, 0, 1]]

/-- Certificate set: every numeral reachable by one Kaprekar step from a
non-repdigit 4-digit numeral; all of them reach "6174" in at most 6 more
steps. -/
def D6 : List (List Nat) :=
  [[0, 9, 9, 9], [1, 0, 8, 9], [1, 9, 9, 8], [2, 0, 8, 8], [2, 1, 7, 8], [2, 9, 9, 7],
   [3, 0, 8, 7], [3, 1, 7, 7], [3, 2, 6, 7], [3, 9, 9, 6], [4, 0, 8, 6], [4, 1, 7, 6],
   [4, 2, 6, 6], [4, 3, 5, 6], [4, 9, 9, 5], [5, 0, 8, 5], [5, 1, 7, 5], [5, 2, 6, 5],
   [5, 3, 5, 5], [5, 4, 4, 5], [5, 9, 9, 4], [6, 0, 8, 4], [6, 1, 7, 4], [6, 2, 6, 4],
   [6, 3, 5, 4], [6, 4, 4, 4], [6, 5, 3, 4], [6, 9, 9, 3], [7, 0, 8, 3], [7, 1, 7, 3],
   [7, 2, 6, 3], [7, 3, 5, 3], [7, 4, 4, 3], [7, 5, 3, 3], [7, 6, 2, 3], [7, 9, 9, 2],
   [8, 0, 8, 2], [8, 1, 7, 2], [8, 2, 6, 2], [8, 3, 5, 2], [8, 4, 4, 2], [8, 5, 3, 2],
   [8, 6, 2, 2], [8, 7, 1, 2], [8, 9, 9, 1], [9, 0, 8, 1], [9, 1, 7, 1], [9, 2, 6, 1],
   [9, 3, 5, 1], [9, 4, 4, 1], [9, 5, 3, 1], [9, 6, 2, 1], [9, 7, 1, 1], [9, 8, 0, 1]]

/-- Boolean check, over one digit tuple: a repdigit maps to "0000" in one
step, and a non-repdigit's one-step image lands in the certificate set `D6`
and is again a non-repdigit. -/
def chkIter (a b c d : Nat) : Bool :=
  if is_repdigit [a, b, c, d] then kaprekar_once [a, b, c, d] == ZEROS
  else
    decide (kaprekar_once [a, b, c, d] ∈ D6)
      && !(is_repdigit (kaprekar_once [a, b, c, d]))

/-- Exhaustive Boolean test of a digit-tuple property over all weakly
increasing tuples of decimal digits; every 4-digit multiset of digits is
represented by exactly one such tuple. -/
def ball4sorted (P : Nat → Nat → Nat → Nat → Bool) : Bool :=
  (List.range 10).all fun a =>
    (List.range' a (10 - a)).all fun b =>
      (List.range' b (10 - b)).all fun c =>
        (List.range' c (10 - c)).all fun d => P a b c d


/-- Number of non-repdigit numerals among the `fuel` integers starting at
`n`, in the same recursion pattern as `computeAllAux`. -/
def countNonRep : Nat → Nat → Nat
  | 0, _ => 0
  | fuel + 1, n =>
    (if is_repdigit (zfill4 (natToDigits n)) then 0 else 1) + countNonRep fuel (n + 1)

/-- A list of length 4 is a literal 4-tuple. -/
lemma length_eq_four_destruct {l : List Nat} (h : l.length = 4) :
    ∃ a b c d : Nat, l = [a, b, c, d] := by
  obtain ⟨a, t1, rfl⟩ := List.exists_of_length_succ l h
  obtain ⟨b, t2, rfl⟩ := List.exists_of_length_succ t1 (by simpa using h)
  obtain ⟨c, t3, rfl⟩ := List.exists_of_length_succ t2 (by simpa using h)
  obtain ⟨d, t4, rfl⟩ := List.exists_of_length_succ t3 (by simpa using h)
  have ht : t4 = [] := List.length_eq_zero.mp (by simpa using h)
  exact ⟨a, b, c, d, by rw [ht]⟩

/-- Zero-filling never shortens a list below length 4. -/
lemma zfill4_length_ge (l : List Nat) : 4 ≤ (zfill4 l).length := by
  simp [zfill4]; omega

/-- Zero-filling a list of length at least 4 is the identity. -/
lemma zfill4_of_length_ge {l : List Nat} (h : 4 ≤ l.length) : zfill4 l = l := by
  simp [zfill4, Nat.sub_eq_zero_of_le h]

/-- Zero-filling a list of length exactly 4 is the identity. -/
lemma zfill4_of_length_eq {l : List Nat} (h : l.length = 4) : zfill4 l = l :=
  zfill4_of_length_ge (by omega)

/-- Zero-filling is idempotent. -/
lemma zfill4_idem (l : List Nat) : zfill4 (zfill4 l) = zfill4 l :=
  zfill4_of_length_ge (zfill4_length_ge l)

/-- The repdigit test is invariant under zero-filling. -/
lemma is_repdigit_zfill4 (l : List Nat) : is_repdigit (zfill4 l) = is_repdigit l := by
  unfold is_repdigit
  rw [zfill4_idem]

/-- One-step unfolding of the digit renderer. -/
lemma natToDigitsAux_succ (f n : Nat) (acc : List Nat) :
    natToDigitsAux (f + 1) n acc =
      if n < 10 then n :: acc else natToDigitsAux f (n / 10) (n % 10 :: acc) := rfl

/-- On integers below 10000, the canonical numeral is the positional 4-digit
rendering. -/
lemma natToDigits_small (n : Nat) (hn : n < 10000) :
    zfill4 (natToDigits n) = [n / 1000 % 10, n / 100 % 10, n / 10 % 10, n % 10] := by
  by_cases h1 : n < 10
  · have e : natToDigits n = [n] := by
      rw [natToDigits, natToDigitsAux_succ, if_pos h1]
    rw [e, show zfill4 [n] = [0, 0, 0, n] from rfl,
      show n / 1000 % 10 = 0 by omega, show n / 100 % 10 = 0 by omega,
      show n / 10 % 10 = 0 by omega, show n % 10 = n by omega]
  · by_cases h2 : n < 100
    · have e : natToDigits n = [n / 10, n % 10] := by
        rw [natToDigits, natToDigitsAux_succ, if_neg h1]
        obtain ⟨f, hf⟩ : ∃ f, n = f + 1 := ⟨n - 1, by omega⟩
        rw [hf, natToDigitsAux_succ, if_pos (by omega)]
      rw [e, show zfill4 [n / 10, n % 10] = [0, 0, n / 10, n % 10] from rfl,
        show n / 1000 % 10 = 0 by omega, show n / 100 % 10 = 0 by omega,
        show n / 10 % 10 = n / 10 by omega]
    · by_cases h3 : n < 1000
      · have e : natToDigits n = [n / 100, n / 10 % 10, n % 10] := by
          rw [natToDigits, natToDigitsAux_succ, if_neg h1]
          obtain ⟨f, hf⟩ : ∃ f, n = f + 1 := ⟨n - 1, by omega⟩
          rw [hf, natToDigitsAux_succ, if_neg (by omega)]
          obtain ⟨g, hg⟩ : ∃ g, f = g + 1 := ⟨f - 1, by omega⟩
          rw [hg, natToDigitsAux_succ, if_pos (by omega),
            show (g + 1 + 1) / 10 / 10 = (g + 1 + 1) / 100 by omega]
        rw [e, show zfill4 [n / 100, n / 10 % 10, n % 10] =
            [0, n / 100, n / 10 % 10, n % 10] from rfl,
          show n / 1000 % 10 = 0 by omega, show n / 100 % 10 = n / 100 by omega]
      · have e : natToDigits n = [n / 1000, n / 100 % 10, n / 10 % 10, n % 10] := by
          rw [natToDigits, natToDigitsAux_succ, if_neg h1]
          obtain ⟨f, hf⟩ : ∃ f, n = f + 1 := ⟨n - 1, by omega⟩
          rw [hf, natToDigitsAux_succ, if_neg (by omega)]
          obtain ⟨g, hg⟩ : ∃ g, f = g + 1 := ⟨f - 1, by omega⟩
          rw [hg, natToDigitsAux_succ, if_neg (by omega)]
          obtain ⟨k, hk⟩ : ∃ k, g = k + 1 := ⟨g - 1, by omega⟩
          rw [hk, natToDigitsAux_succ, if_pos (by omega),
            show (k + 1 + 1 + 1) / 10 / 10 = (k + 1 + 1 + 1) / 100 by omega,
            show (k + 1 + 1 + 1) / 100 / 10 = (k + 1 + 1 + 1) / 1000 by omega,
            show (k + 1 + 1 + 1) / 100 % 10 = (k + 1 + 1 + 1) / 100 % 10 from rfl]
        rw [e, show zfill4 [n / 1000, n / 100 % 10, n / 10 % 10, n % 10] =
            [n / 1000, n / 100 % 10, n / 10 % 10, n % 10] from rfl,
          show n / 1000 % 10 = n / 1000 by omega]

/-- A list deduplicates to a single element exactly when it is nonempty and
constant. -/
lemma dedup_length_one {l : List Nat} :
    l.dedup.length = 1 ↔ ∃ x, l ≠ [] ∧ ∀ y ∈ l, y = x := by
  constructor
  · intro h
    obtain ⟨x, hx⟩ := List.length_eq_one.mp h
    refine ⟨x, ?_, ?_⟩
    · intro hnil
      rw [hnil] at hx
      simp at hx
    · intro y hy
      have hmem : y ∈ l.dedup := List.mem_dedup.mpr hy
      rw [hx] at hmem
      simpa using hmem
  · rintro ⟨x, hne, hall⟩
    have hrep : l = List.replicate l.length x := List.eq_replicate_iff.mpr ⟨rfl, hall⟩
    rw [hrep, List.replicate_dedup (by simpa using hne)]
    rfl

/-- On integers below 10000, the rendered numeral is a repdigit exactly for
the multiples of 1111. -/
lemma repdigit_iff_mod (n : Nat) (hn : n < 10000) :
    is_repdigit (zfill4 (natToDigits n)) = true ↔ n % 1111 = 0 := by
  rw [is_repdigit, zfill4_idem, natToDigits_small n hn, beq_iff_eq, dedup_length_one]
  have k1 : n / 1000 / 10 = n / 10000 := by rw [Nat.div_div_eq_div_mul]
  have k2 : n / 100 / 10 = n / 1000 := by rw [Nat.div_div_eq_div_mul]
  have k3 : n / 10 / 10 = n / 100 := by rw [Nat.div_div_eq_div_mul]
  have hsum : 1000 * (n / 1000 % 10) + 100 * (n / 100 % 10) + 10 * (n / 10 % 10) + n % 10 = n := by
    omega
  constructor
  · rintro ⟨x, _, hall⟩
    have hA := hall _ (by simp : n / 1000 % 10 ∈ _)
    have hB := hall _ (by simp : n / 100 % 10 ∈ _)
    have hC := hall _ (by simp : n / 10 % 10 ∈ _)
    have hD := hall _ (by simp : n % 10 ∈ _)
    rw [hA, hB, hC, hD] at hsum
    have he : n = 1111 * x := by omega
    rw [he]
    exact Nat.mul_mod_right 1111 x
  · intro h
    obtain ⟨q, hq⟩ : ∃ q, n = 1111 * q := ⟨n / 1111, by omega⟩
    have hq9 : q ≤ 9 := by omega
    subst hq
    refine ⟨q, by simp, ?_⟩
    intro y hy
    simp only [List.mem_cons, List.not_mem_nil, or_false] at hy
    interval_cases q <;> rcases hy with rfl | rfl | rfl | rfl <;> norm_num

/-- Permuted lists have equal ascending insertion sorts. -/
lemma insertionSortAsc_congr {l₁ l₂ : List Nat} (h : l₁.Perm l₂) :
    List.insertionSort (· ≤ ·) l₁ = List.insertionSort (· ≤ ·) l₂ :=
  List.eq_of_perm_of_sorted
    ((List.perm_insertionSort _ _).trans (h.trans (List.perm_insertionSort _ _).symm))
    (List.sorted_insertionSort _ _) (List.sorted_insertionSort _ _)

/-- Permuted lists have equal ascending sorts. -/
lemma sortAsc_congr {l₁ l₂ : List Nat} (h : l₁.Perm l₂) : sortAsc l₁ = sortAsc l₂ :=
  insertionSortAsc_congr h

/-- Permuted lists have equal descending sorts. -/
lemma sortDesc_congr {l₁ l₂ : List Nat} (h : l₁.Perm l₂) : sortDesc l₁ = sortDesc l₂ :=
  List.eq_of_perm_of_sorted
    ((List.perm_insertionSort _ _).trans (h.trans (List.perm_insertionSort _ _).symm))
    (List.sorted_insertionSort _ _) (List.sorted_insertionSort _ _)

/-- Zero-filling maps permuted lists to permuted lists. -/
lemma zfill4_perm {l₁ l₂ : List Nat} (h : l₁.Perm l₂) : (zfill4 l₁).Perm (zfill4 l₂) := by
  unfold zfill4
  rw [h.length_eq]
  exact List.Perm.append_left _ h

/-- The Kaprekar step depends only on the multiset of digits. -/
lemma kaprekar_once_congr {l₁ l₂ : List Nat} (h : l₁.Perm l₂) :
    kaprekar_once l₁ = kaprekar_once l₂ := by
  unfold kaprekar_once
  rw [sortDesc_congr (zfill4_perm h), sortAsc_congr (zfill4_perm h)]

/-- The kaprekar.py loop body depends only on the multiset of digits. -/
lemma loopStep_congr {l₁ l₂ : List Nat} (h : l₁.Perm l₂) : loopStep l₁ = loopStep l₂ := by
  unfold loopStep kaprekar
  rw [sortDesc_congr h, sortAsc_congr h]

/-- The repdigit test depends only on the multiset of digits. -/
lemma is_repdigit_congr {l₁ l₂ : List Nat} (h : l₁.Perm l₂) :
    is_repdigit l₁ = is_repdigit l₂ := by
  unfold is_repdigit
  rw [((zfill4_perm h).dedup).length_eq]

/-- The spec-side difference depends only on the multiset of digits. -/
lemma specDiff_congr {l₁ l₂ : List Nat} (h : l₁.Perm l₂) : specDiff l₁ = specDiff l₂ := by
  unfold specDiff
  rw [insertionSortAsc_congr h]

/-- The spec-side step depends only on the multiset of digits. -/
lemma kaprekarStepSpec_congr {l₁ l₂ : List Nat} (h : l₁.Perm l₂) :
    kaprekarStepSpec l₁ = kaprekarStepSpec l₂ := by
  unfold kaprekarStepSpec
  rw [specDiff_congr h]

/-- Iterates of the Kaprekar step (at least one application) depend only on
the multiset of starting digits. -/
lemma kaprekar_iterate_congr {l₁ l₂ : List Nat} (h : l₁.Perm l₂) {k : Nat} (hk : 1 ≤ k) :
    kaprekar_once^[k] l₁ = kaprekar_once^[k] l₂ := by
  obtain ⟨j, rfl⟩ : ∃ j, k = j + 1 := ⟨k - 1, by omega⟩
  rw [Function.iterate_succ_apply, Function.iterate_succ_apply, kaprekar_once_congr h]

/-- Iterates of the kaprekar.py loop body (at least one application) depend
only on the multiset of starting digits. -/
lemma loopStep_iterate_congr {l₁ l₂ : List Nat} (h : l₁.Perm l₂) {k : Nat} (hk : 1 ≤ k) :
    loopStep^[k] l₁ = loopStep^[k] l₂ := by
  obtain ⟨j, rfl⟩ : ∃ j, k = j + 1 := ⟨k - 1, by omega⟩
  rw [Function.iterate_succ_apply, Function.iterate_succ_apply, loopStep_congr h]

/-- A property checked by `ball4sorted` holds of every weakly increasing tuple
of decimal digits. -/
lemma ball4sorted_eq_true {P : Nat → Nat → Nat → Nat → Bool} (h : ball4sorted P = true)
    {a b c d : Nat} (hab : a ≤ b) (hbc : b ≤ c) (hcd : c ≤ d) (hd : d < 10) :
    P a b c d = true := by
  simp only [ball4sorted, List.all_eq_true, List.mem_range, List.mem_range'_1] at h
  exact h a (by omega) b ⟨hab, by omega⟩ c ⟨hbc, by omega⟩ d ⟨hcd, by omega⟩

/-- Every 4-digit numeral is a permutation of a weakly increasing digit tuple,
its ascending sort. -/
lemma exists_sorted_tuple (ds : List Nat) (h4 : ds.length = 4) (hd : ∀ x ∈ ds, x < 10) :
    ∃ a b c d : Nat, a ≤ b ∧ b ≤ c ∧ c ≤ d ∧ d < 10 ∧ List.Perm [a, b, c, d] ds := by
  have hp : (List.insertionSort (· ≤ ·) ds).Perm ds := List.perm_insertionSort _ ds
  have hs : List.Sorted (· ≤ ·) (List.insertionSort (· ≤ ·) ds) :=
    List.sorted_insertionSort _ ds
  have hl : (List.insertionSort (· ≤ ·) ds).length = 4 := by rw [hp.length_eq, h4]
  obtain ⟨a, b, c, d, heq⟩ := length_eq_four_destruct hl
  rw [heq] at hp hs
  simp only [List.sorted_cons, List.mem_cons, List.mem_singleton, List.sorted_singleton,
    List.not_mem_nil, or_false, forall_eq_or_imp, forall_eq] at hs
  refine ⟨a, b, c, d, hs.1.1, hs.2.1.1, hs.2.2.1, ?_, hp⟩
  exact hd d (hp.mem_iff.mp (by simp))

/-- Exhaustive check of `chkStep` over all weakly increasing digit tuples. -/
lemma chkStep_all : ball4sorted chkStep = true := by decide!

/-- Exhaustive check of `chkShape` over all weakly increasing digit tuples. -/
lemma chkShape_all : ball4sorted chkShape = true := by decide!

/-- Exhaustive check of `chkDecrease` over all weakly increasing digit
tuples. -/
lemma chkDecrease_all : ball4sorted chkDecrease = true := by decide!

/-- Exhaustive check of `chkIter` over all weakly increasing digit tuples. -/
lemma chkIter_all : ball4sorted chkIter = true := by decide!

/-- Every numeral in `D1` reaches "6174" in one step. -/
lemma D1_step : D1.all (fun x => kaprekar_once x == KAPREKAR_CONST) = true := by decide

/-- One Kaprekar step maps `D2` into `D1`. -/
lemma D2_step : D2.all (fun x => decide (kaprekar_once x ∈ D1)) = true := by decide

/-- One Kaprekar step maps `D3` into `D2`. -/
lemma D3_step : D3.all (fun x => decide (kaprekar_once x ∈ D2)) = true := by decide

/-- One Kaprekar step maps `D4` into `D3`. -/
lemma D4_step : D4.all (fun x => decide (kaprekar_once x ∈ D3)) = true := by decide

/-- One Kaprekar step maps `D5` into `D4`. -/
lemma D5_step : D5.all (fun x => decide (kaprekar_once x ∈ D4)) = true := by decide

/-- One Kaprekar step maps `D6` into `D5`. -/
lemma D6_step : D6.all (fun x => decide (kaprekar_once x ∈ D5)) = true := by decide

/-- Composing certificate levels: if one step maps `Dnext` into `Dprev` and
`Dprev` converges in `k` steps, then `Dnext` converges in `k + 1` steps. -/
lemma chain_step {Dprev Dnext : List (List Nat)} {k : Nat}
    (hstep : Dnext.all (fun x => decide (kaprekar_once x ∈ Dprev)) = true)
    (hprev : ∀ x ∈ Dprev, kaprekar_once^[k] x = KAPREKAR_CONST) :
    ∀ x ∈ Dnext, kaprekar_once^[k + 1] x = KAPREKAR_CONST := by
  intro x hx
  have hmem : kaprekar_once x ∈ Dprev := by
    have h := List.all_eq_true.mp hstep x hx
    simpa using h
  rw [Function.iterate_succ_apply]
  exact hprev _ hmem

/-- Every numeral in `D1` reaches "6174" in one iterate. -/
lemma D1_iter : ∀ x ∈ D1, kaprekar_once^[1] x = KAPREKAR_CONST := by
  intro x hx
  have h := List.all_eq_true.mp D1_step x hx
  rw [beq_iff_eq] at h
  simpa using h

/-- Every numeral in `D6` reaches "6174" within six iterates. -/
lemma D6_iter : ∀ x ∈ D6, kaprekar_once^[6] x = KAPREKAR_CONST :=
  chain_step D6_step (chain_step D5_step (chain_step D4_step
    (chain_step D3_step (chain_step D2_step D1_iter))))

/-- The Kaprekar step on a 4-digit numeral agrees with the spec's description. -/
lemma kaprekar_once_eq_spec (ds : List Nat) (h4 : ds.length = 4) (hd : ∀ x ∈ ds, x < 10) :
    kaprekar_once ds = kaprekarStepSpec ds := by
  obtain ⟨a, b, c, d, hab, hbc, hcd, hd10, hperm⟩ := exists_sorted_tuple ds h4 hd
  have h := ball4sorted_eq_true chkStep_all hab hbc hcd hd10
  have heq : kaprekar_once [a, b, c, d] = kaprekarStepSpec [a, b, c, d] := by
    simpa [chkStep] using h
  calc kaprekar_once ds = kaprekar_once [a, b, c, d] := (kaprekar_once_congr hperm).symm
    _ = kaprekarStepSpec [a, b, c, d] := heq
    _ = kaprekarStepSpec ds := kaprekarStepSpec_congr hperm

/-- Shape of the Kaprekar step's output on a 4-digit numeral: a canonical
4-digit numeral of value at most 9999, with the descending value dominating
the ascending one. -/
lemma kaprekar_once_shape (ds : List Nat) (h4 : ds.length = 4) (hd : ∀ x ∈ ds, x < 10) :
    (kaprekar_once ds).length = 4 ∧ (∀ x ∈ kaprekar_once ds, x < 10) ∧
      digitsToNat (kaprekar_once ds) ≤ 9999 ∧
      digitsToNat (sortAsc (zfill4 ds)) ≤ digitsToNat (sortDesc (zfill4 ds)) := by
  obtain ⟨a, b, c, d, hab, hbc, hcd, hd10, hperm⟩ := exists_sorted_tuple ds h4 hd
  have h := ball4sorted_eq_true chkShape_all hab hbc hcd hd10
  simp only [chkShape, Bool.and_eq_true, beq_iff_eq, List.all_eq_true, decide_eq_true_eq] at h
  rw [← kaprekar_once_congr hperm, ← sortAsc_congr (zfill4_perm hperm),
    ← sortDesc_congr (zfill4_perm hperm)]
  exact ⟨h.1.1.1, h.1.1.2, h.1.2, h.2⟩

/-- On 4-digit numerals the kaprekar.py loop body and `kaprekar_once`
coincide (the zero-fill of the input is the identity there). -/
lemma loopStep_eq_kaprekar_once {l : List Nat} (h4 : l.length = 4) :
    loopStep l = kaprekar_once l := by
  unfold loopStep kaprekar kaprekar_once
  rw [zfill4_of_length_eq h4]

/-- Iterates of the kaprekar.py loop body coincide with iterates of
`kaprekar_once` on 4-digit numerals. -/
lemma loopStep_iterate_eq (k : Nat) :
    ∀ l : List Nat, l.length = 4 → (∀ x ∈ l, x < 10) →
      loopStep^[k] l = kaprekar_once^[k] l := by
  induction k with
  | zero => intro l _ _; rfl
  | succ k ih =>
    intro l h4 hd
    rw [Function.iterate_succ_apply, Function.iterate_succ_apply,
      loopStep_eq_kaprekar_once h4]
    obtain ⟨hl, hd', _⟩ := kaprekar_once_shape l h4 hd
    exact ih _ hl hd'

/-- On a non-repdigit 4-digit numeral the Kaprekar step strictly decreases
below the maximal digit permutation. -/
lemma kaprekar_once_decrease (ds : List Nat) (h4 : ds.length = 4) (hd : ∀ x ∈ ds, x < 10)
    (hrep : is_repdigit ds = false) :
    digitsToNat (kaprekar_once ds) < digitsToNat (sortDesc (zfill4 ds)) := by
  obtain ⟨a, b, c, d, hab, hbc, hcd, hd10, hperm⟩ := exists_sorted_tuple ds h4 hd
  have h := ball4sorted_eq_true chkDecrease_all hab hbc hcd hd10
  rw [chkDecrease, is_repdigit_congr hperm, hrep, Bool.false_or, decide_eq_true_eq] at h
  rw [← kaprekar_once_congr hperm, ← sortDesc_congr (zfill4_perm hperm)]
  exact h

/-- Trajectory facts for a 4-digit numeral: a repdigit collapses to "0000" in
one step; a non-repdigit reaches "6174" in 7 Kaprekar steps and stays a
non-repdigit after one step. -/
lemma iter_master (ds : List Nat) (h4 : ds.length = 4) (hd : ∀ x ∈ ds, x < 10) :
    (is_repdigit ds = true → kaprekar_once ds = ZEROS) ∧
      (is_repdigit ds = false →
        kaprekar_once^[7] ds = KAPREKAR_CONST ∧
          is_repdigit (kaprekar_once ds) = false) := by
  obtain ⟨a, b, c, d, hab, hbc, hcd, hd10, hperm⟩ := exists_sorted_tuple ds h4 hd
  have h := ball4sorted_eq_true chkIter_all hab hbc hcd hd10
  rw [chkIter, is_repdigit_congr hperm] at h
  constructor
  · intro hrep
    simp only [hrep, if_true, beq_iff_eq] at h
    rw [← kaprekar_once_congr hperm]
    exact h
  · intro hrep
    simp only [hrep, Bool.false_eq_true, if_false, Bool.and_eq_true, decide_eq_true_eq,
      Bool.not_eq_true'] at h
    refine ⟨?_, ?_⟩
    · rw [show (7 : Nat) = 6 + 1 from rfl, Function.iterate_succ_apply,
        kaprekar_once_congr hperm.symm]
      exact D6_iter _ h.1
    · rw [← kaprekar_once_congr hperm]
      exact h.2

/-- "6174" is a fixed point of the Kaprekar step. -/
lemma kaprekar_once_const : kaprekar_once KAPREKAR_CONST = KAPREKAR_CONST := by decide

/-- "0000" is a fixed point of the Kaprekar step. -/
lemma kaprekar_once_zeros : kaprekar_once ZEROS = ZEROS := by decide

/-- The constant and the all-zero numeral differ. -/
lemma const_ne_zeros : KAPREKAR_CONST ≠ ZEROS := by decide

/-- Every iterate fixes "6174". -/
lemma iterate_const (j : Nat) : kaprekar_once^[j] KAPREKAR_CONST = KAPREKAR_CONST := by
  induction j with
  | zero => rfl
  | succ j ih => rw [Function.iterate_succ_apply', ih, kaprekar_once_const]

/-- Every iterate fixes "0000". -/
lemma iterate_zeros (j : Nat) : kaprekar_once^[j] ZEROS = ZEROS := by
  induction j with
  | zero => rfl
  | succ j ih => rw [Function.iterate_succ_apply', ih, kaprekar_once_zeros]

/-- Characterization of the `steps_to_kaprekar` while loop: it answers
`some k` exactly when `k` counts, on top of the steps already taken, the first
iterate of the current numeral that hits "6174", and the iteration budget
suffices to get there. -/
lemma stepsLoop_some_iff (fuel : Nat) :
    ∀ (s : List Nat) (steps k : Nat),
      stepsLoop fuel s steps = some k ↔
        steps ≤ k ∧ k - steps ≤ fuel ∧ kaprekar_once^[k - steps] s = KAPREKAR_CONST ∧
          ∀ j < k - steps, kaprekar_once^[j] s ≠ KAPREKAR_CONST := by
  induction fuel with
  | zero =>
    intro s steps k
    simp only [stepsLoop]
    split
    · next hs =>
      subst hs
      constructor
      · rintro ⟨rfl⟩
        exact ⟨le_refl _, by omega, by simp, by omega⟩
      · rintro ⟨h1, h2, h3, h4⟩
        have hk : k = steps := by omega
        rw [hk]
      -- fall through: goal some steps = some steps
    · next hs =>
      constructor
      · intro h
        exact absurd h (by simp)
      · rintro ⟨h1, h2, h3, h4⟩
        have hk : k - steps = 0 := by omega
        rw [hk] at h3
        exact absurd h3 hs
  | succ fuel ih =>
    intro s steps k
    simp only [stepsLoop]
    split
    · next hs =>
      subst hs
      constructor
      · rintro ⟨rfl⟩
        exact ⟨le_refl _, by omega, by simp, by omega⟩
      · rintro ⟨h1, h2, h3, h4⟩
        have hk : k = steps := by
          by_contra hne
          exact h4 0 (by omega) (by simp)
        rw [hk]
    · next hs =>
      split
      · next hz =>
        constructor
        · intro h
          exact absurd h (by simp)
        · rintro ⟨h1, h2, h3, h4⟩
          exfalso
          rcases Nat.eq_zero_or_pos (k - steps) with h0 | hpos
          · rw [h0] at h3
            exact hs h3
          · obtain ⟨m, hm⟩ : ∃ m, k - steps = m + 1 := ⟨k - steps - 1, by omega⟩
            rw [hm, Function.iterate_succ_apply, hz, iterate_zeros] at h3
            exact const_ne_zeros h3.symm
      · next hz =>
        rw [ih]
        constructor
        · rintro ⟨h1, h2, h3, h4⟩
          refine ⟨by omega, by omega, ?_, ?_⟩
          · have hk : k - steps = (k - (steps + 1)) + 1 := by omega
            rw [hk, Function.iterate_succ_apply]
            exact h3
          · intro j hj
            match j with
            | 0 => simpa using hs
            | i + 1 =>
              rw [Function.iterate_succ_apply]
              exact h4 i (by omega)
        · rintro ⟨h1, h2, h3, h4⟩
          have hks : steps < k := by
            rcases Nat.lt_or_ge steps k with h' | h'
            · exact h'
            · exfalso
              have h0 : k - steps = 0 := by omega
              rw [h0] at h3
              exact hs h3
          refine ⟨by omega, by omega, ?_, ?_⟩
          · have hk : k - steps = (k - (steps + 1)) + 1 := by omega
            rw [hk, Function.iterate_succ_apply] at h3
            exact h3
          · intro j hj
            have := h4 (j + 1) (by omega)
            rwa [Function.iterate_succ_apply] at this

/-- Characterization of `steps_to_kaprekar` on non-repdigit inputs: `some k`
exactly when the `k`-th iterate of the zero-filled input is the first to hit
"6174" and `k` is within the cap. -/
lemma steps_to_kaprekar_some_iff (ds : List Nat) (m k : Nat)
    (hrep : is_repdigit ds = false) :
    steps_to_kaprekar ds m = some k ↔
      k ≤ m ∧ kaprekar_once^[k] (zfill4 ds) = KAPREKAR_CONST ∧
        ∀ j < k, kaprekar_once^[j] (zfill4 ds) ≠ KAPREKAR_CONST := by
  have hrep' : is_repdigit (zfill4 ds) = false := by rwa [is_repdigit_zfill4]
  rw [steps_to_kaprekar, hrep']
  rw [if_neg (by simp)]
  rw [stepsLoop_some_iff]
  simp only [Nat.zero_le, Nat.sub_zero, true_and]

/-- A repdigit input makes `steps_to_kaprekar` fail immediately. -/
lemma steps_to_kaprekar_repdigit (ds : List Nat) (m : Nat) (hrep : is_repdigit ds = true) :
    steps_to_kaprekar ds m = none := by
  have hrep' : is_repdigit (zfill4 ds) = true := by rwa [is_repdigit_zfill4]
  rw [steps_to_kaprekar, hrep']
  exact if_pos rfl

/-- A trajectory that hits "6174" at index `N` hits it a first time at some
index at most `N`. -/
lemma first_hit_exists (s : List Nat) : ∀ N : Nat, kaprekar_once^[N] s = KAPREKAR_CONST →
    ∃ k, k ≤ N ∧ kaprekar_once^[k] s = KAPREKAR_CONST ∧
      ∀ j < k, kaprekar_once^[j] s ≠ KAPREKAR_CONST := by
  intro N
  induction N using Nat.strong_induction_on with
  | _ N ih =>
    intro hN
    by_cases hall : ∀ j < N, kaprekar_once^[j] s ≠ KAPREKAR_CONST
    · exact ⟨N, le_refl N, hN, hall⟩
    · push_neg at hall
      obtain ⟨j, hj, hje⟩ := hall
      obtain ⟨k, hk, hke, hkf⟩ := ih j hj hje
      exact ⟨k, by omega, hke, hkf⟩

/-- A non-repdigit 4-digit numeral converges: with any cap of at least 7,
`steps_to_kaprekar` answers `some k` for some `k ≤ 7`. -/
lemma steps_to_kaprekar_converges (ds : List Nat) (h4 : ds.length = 4)
    (hd : ∀ x ∈ ds, x < 10) (hrep : is_repdigit ds = false) (m : Nat) (hm : 7 ≤ m) :
    ∃ k, k ≤ 7 ∧ steps_to_kaprekar ds m = some k := by
  have h7 : kaprekar_once^[7] ds = KAPREKAR_CONST := ((iter_master ds h4 hd).2 hrep).1
  obtain ⟨k, hk7, hke, hkf⟩ := first_hit_exists ds 7 h7
  refine ⟨k, hk7, ?_⟩
  rw [steps_to_kaprekar_some_iff ds m _ hrep, zfill4_of_length_eq h4]
  exact ⟨by omega, hke, hkf⟩

/-- A trajectory that reaches "6174" never visits "0000". -/
lemma no_zeros_of_iter7 (s : List Nat) (h7 : kaprekar_once^[7] s = KAPREKAR_CONST) :
    ∀ k, kaprekar_once^[k] s ≠ ZEROS := by
  intro k hk
  rcases le_or_lt k 7 with h | h
  · have : kaprekar_once^[7] s = ZEROS := by
      have h77 : 7 = (7 - k) + k := by omega
      rw [h77, Function.iterate_add_apply, hk, iterate_zeros]
    rw [h7] at this
    exact const_ne_zeros this
  · have : kaprekar_once^[k] s = KAPREKAR_CONST := by
      have hkk : k = (k - 7) + 7 := by omega
      rw [hkk, Function.iterate_add_apply, h7, iterate_const]
    rw [hk] at this
    exact const_ne_zeros this.symm

/-- No iterate of the Kaprekar step maps a non-repdigit 4-digit numeral to
"0000". -/
lemma no_zeros (ds : List Nat) (h4 : ds.length = 4) (hd : ∀ x ∈ ds, x < 10)
    (hrep : is_repdigit ds = false) : ∀ k, kaprekar_once^[k] ds ≠ ZEROS :=
  no_zeros_of_iter7 ds ((iter_master ds h4 hd).2 hrep).1

/-- If some iterate of the kaprekar.py loop body reaches "6174" within the
fuel, the fuel-bounded main loop terminates with a step count bounded by the
steps already taken plus that iterate index. -/
lemma mainLoop_some (fuel : Nat) :
    ∀ (s : List Nat) (step j : Nat), j ≤ fuel → loopStep^[j] s = KAPREKAR_CONST →
      ∃ k, k ≤ step + j ∧ mainLoop fuel s step = some k := by
  induction fuel with
  | zero =>
    intro s step j hj h7
    interval_cases j
    simp only [Function.iterate_zero_apply] at h7
    exact ⟨step, by omega, by simp [mainLoop, h7]⟩
  | succ fuel ih =>
    intro s step j hj h7
    by_cases hs : s = KAPREKAR_CONST
    · exact ⟨step, by omega, by simp [mainLoop, hs]⟩
    · have hj0 : j ≠ 0 := by
        rintro rfl
        exact hs h7
      obtain ⟨i, rfl⟩ : ∃ i, j = i + 1 := ⟨j - 1, by omega⟩
      rw [Function.iterate_succ_apply] at h7
      obtain ⟨k, hk, hml⟩ := ih (loopStep s) (step + 1) i (by omega) h7
      exact ⟨k, by omega, by rw [mainLoop, if_neg hs]; exact hml⟩

/-- Every canonical numeral rendered from an integer below 10000 is a 4-digit
list of decimal digits. -/
lemma numeral_shape (m : Nat) (hm : m < 10000) :
    (zfill4 (natToDigits m)).length = 4 ∧ ∀ x ∈ zfill4 (natToDigits m), x < 10 := by
  rw [natToDigits_small m hm]
  refine ⟨rfl, ?_⟩
  intro x hx
  simp only [List.mem_cons, List.not_mem_nil, or_false] at hx
  rcases hx with rfl | rfl | rfl | rfl
  all_goals omega

/-- Each processed integer contributes one entry to the batch outputs unless
it is a repdigit: the combined lengths count the non-repdigits in the
enumerated range. -/
lemma computeAllAux_length (fuel : Nat) :
    ∀ n : Nat, (computeAllAux fuel n).1.length + (computeAllAux fuel n).2.length =
      countNonRep fuel n := by
  induction fuel with
  | zero => intro n; simp [computeAllAux, countNonRep]
  | succ fuel ih =>
    intro n
    simp only [computeAllAux, countNonRep]
    cases hrep : is_repdigit (zfill4 (natToDigits n)) with
    | true =>
      simp only [hrep, if_true]
      have h := ih (n + 1)
      omega
    | false =>
      simp only [hrep, Bool.false_eq_true, if_false]
      cases hst : steps_to_kaprekar (zfill4 (natToDigits n)) with
      | none =>
        simp only [List.length_cons]
        have h := ih (n + 1)
        omega
      | some st =>
        simp only [List.length_cons]
        have h := ih (n + 1)
        omega

/-- Closed form for the non-repdigit count: over any range inside 0..9999 it
is the range width minus the number of multiples of 1111 in the range. -/
lemma countNonRep_closed (fuel : Nat) : ∀ n : Nat, n + fuel ≤ 10000 →
    countNonRep fuel n + ((n + fuel + 1110) / 1111 - (n + 1110) / 1111) = fuel := by
  induction fuel with
  | zero =>
    intro n _
    simp only [countNonRep]
    omega
  | succ fuel ih =>
    intro n h
    simp only [countNonRep]
    have hch := repdigit_iff_mod n (by omega)
    have hih := ih (n + 1) (by omega)
    by_cases hrep : is_repdigit (zfill4 (natToDigits n)) = true
    · rw [if_pos hrep]
      have hmod : n % 1111 = 0 := hch.mp hrep
      omega
    · rw [if_neg hrep]
      have hmod : ¬n % 1111 = 0 := fun hm => hrep (hch.mpr hm)
      omega

/-- Failures recorded by the batch loop are never repdigits. -/
lemma computeAllAux_failures_not_repdigit (fuel : Nat) :
    ∀ n s, s ∈ (computeAllAux fuel n).2 → is_repdigit s = false := by
  induction fuel with
  | zero => intro n s hs; simp [computeAllAux] at hs
  | succ fuel ih =>
    intro n s hs
    simp only [computeAllAux] at hs
    by_cases hrep : is_repdigit (zfill4 (natToDigits n)) = true
    · rw [if_pos hrep] at hs
      exact ih (n + 1) s hs
    · rw [if_neg hrep] at hs
      cases hst : steps_to_kaprekar (zfill4 (natToDigits n)) with
      | none =>
        rw [hst] at hs
        simp only [List.mem_cons] at hs
        rcases hs with rfl | hs
        · simpa using hrep
        · exact ih (n + 1) s hs
      | some st =>
        rw [hst] at hs
        exact ih (n + 1) s hs

/-- If every non-repdigit in the enumerated range converges, the batch loop
records no failures. -/
lemma computeAllAux_failures_nil (fuel : Nat) :
    ∀ n : Nat,
      (∀ m, m < n + fuel → is_repdigit (zfill4 (natToDigits m)) = false →
        ∃ k, steps_to_kaprekar (zfill4 (natToDigits m)) = some k) →
      (computeAllAux fuel n).2 = [] := by
  induction fuel with
  | zero => intro n _; simp [computeAllAux]
  | succ fuel ih =>
    intro n h
    simp only [computeAllAux]
    by_cases hrep : is_repdigit (zfill4 (natToDigits n)) = true
    · rw [if_pos hrep]
      exact ih (n + 1) fun m hm hr => h m (by omega) hr
    · rw [if_neg hrep]
      obtain ⟨k, hk⟩ := h n (by omega) (by simpa using hrep)
      rw [hk]
      exact ih (n + 1) fun m hm hr => h m (by omega) hr

/-- The failures list of the batch analysis is empty. -/
lemma compute_all_failures_nil : compute_all.2 = [] := by
  apply computeAllAux_failures_nil
  intro m hm hrep
  obtain ⟨h4, hd⟩ := numeral_shape m (by omega)
  obtain ⟨k, _, hk⟩ := steps_to_kaprekar_converges _ h4 hd hrep 50 (by omega)
  exact ⟨k, hk⟩

/-- C1: on every 4-digit numeral, `kaprekar_once` returns exactly the
spec-described value — descending sort minus ascending sort, left-zero-padded
to 4 digits — and on "3524" the largest is "5432", the smallest "2345", the
difference 3087, and the result "3087". -/
theorem kaprekarStep_implements_spec :
    (∀ ds : List Nat, ds.length = 4 → (∀ x ∈ ds, x < 10) →
        kaprekar_once ds = kaprekarStepSpec ds)
      ∧ sortDesc [3, 5, 2, 4] = [5, 4, 3, 2] ∧ sortAsc [3, 5, 2, 4] = [2, 3, 4, 5]
      ∧ digitsToNat (sortDesc [3, 5, 2, 4]) - digitsToNat (sortAsc [3, 5, 2, 4]) = 3087
      ∧ kaprekar_once [3, 5, 2, 4] = [3, 0, 8, 7] :=
  ⟨kaprekar_once_eq_spec, by decide, by decide, by decide, by decide⟩

/-- Witness for C1 at the concrete input "3524". -/
theorem kaprekarStep_implements_spec_witness :
    kaprekar_once [3, 5, 2, 4] = kaprekarStepSpec [3, 5, 2, 4] :=
  kaprekarStep_implements_spec.1 [3, 5, 2, 4] (by decide) (by decide)

/-- C2: `steps_to_kaprekar` fails immediately on repdigits (in particular it
never converges on them), answers `some k` on a non-repdigit exactly when the
`k`-th iterate is the first to reach "6174" within the cap, and fails whenever
some iterate of the input reaches "0000". -/
theorem steps_to_kaprekar_characterization :
    (∀ (ds : List Nat) (m : Nat), is_repdigit ds = true → steps_to_kaprekar ds m = none)
      ∧ (∀ (ds : List Nat) (m k : Nat), is_repdigit ds = false →
          (steps_to_kaprekar ds m = some k ↔
            k ≤ m ∧ kaprekar_once^[k] (zfill4 ds) = KAPREKAR_CONST ∧
              ∀ j < k, kaprekar_once^[j] (zfill4 ds) ≠ KAPREKAR_CONST))
      ∧ (∀ (ds : List Nat) (m j : Nat), 1 ≤ j → kaprekar_once^[j] (zfill4 ds) = ZEROS →
          steps_to_kaprekar ds m = none)
      ∧ (∀ (ds : List Nat) (m k : Nat), is_repdigit ds = true →
          steps_to_kaprekar ds m ≠ some k) := by
  refine ⟨steps_to_kaprekar_repdigit, fun ds m k h => steps_to_kaprekar_some_iff ds m k h,
    ?_, ?_⟩
  · intro ds m j hj hz
    cases hrep : is_repdigit ds with
    | true => exact steps_to_kaprekar_repdigit ds m hrep
    | false =>
      cases hsk : steps_to_kaprekar ds m with
      | none => rfl
      | some k =>
        exfalso
        have hKC := ((steps_to_kaprekar_some_iff ds m k hrep).mp hsk).2.1
        rcases le_or_lt j k with h | h
        · have : kaprekar_once^[k] (zfill4 ds) = ZEROS := by
            have hkk : k = (k - j) + j := by omega
            rw [hkk, Function.iterate_add_apply, hz, iterate_zeros]
          rw [hKC] at this
          exact const_ne_zeros this
        · have : kaprekar_once^[j] (zfill4 ds) = KAPREKAR_CONST := by
            have hjj : j = (j - k) + k := by omega
            rw [hjj, Function.iterate_add_apply, hKC, iterate_const]
          rw [hz] at this
          exact const_ne_zeros this.symm
  · intro ds m k h
    rw [steps_to_kaprekar_repdigit ds m h]
    simp

/-- Witness for C2: the repdigit "1111" fails, and "3524" converges in 3
steps. -/
theorem steps_to_kaprekar_characterization_witness :
    steps_to_kaprekar [1, 1, 1, 1] 50 = none ∧ steps_to_kaprekar [3, 5, 2, 4] 50 = some 3 :=
  ⟨steps_to_kaprekar_characterization.1 [1, 1, 1, 1] 50 (by decide),
   (steps_to_kaprekar_characterization.2.1 [3, 5, 2, 4] 50 3 (by decide)).mpr (by decide)⟩

/-- C3: the regression fixtures — "3524" converges in 3 steps, "2111" in 5,
"8532" in 1, all with the default cap. -/
theorem steps_to_kaprekar_fixtures :
    steps_to_kaprekar [3, 5, 2, 4] = some 3 ∧ steps_to_kaprekar [2, 1, 1, 1] = some 5
      ∧ steps_to_kaprekar [8, 5, 3, 2] = some 1 :=
  ⟨by decide, by decide, by decide⟩

/-- C4: the batch analysis enumerates 0..9999 in ascending order, skips
exactly the 10 repdigit numerals without counting them as failures, and
classifies every other numeral, so the two output lengths sum to
10000 − 10. -/
theorem compute_all_partition :
    compute_all.1.length + compute_all.2.length = 10000 - 10
      ∧ (∀ n < 10000, (is_repdigit (zfill4 (natToDigits n)) = true ↔
          n ∈ [0, 1111, 2222, 3333, 4444, 5555, 6666, 7777, 8888, 9999]))
      ∧ compute_all.2.all (fun s => !is_repdigit s) = true := by
  refine ⟨?_, ?_, ?_⟩
  · have h := computeAllAux_length 10000 0
    have hc := countNonRep_closed 10000 0 (by omega)
    rw [compute_all, h]
    omega
  · intro n hn
    rw [repdigit_iff_mod n hn]
    simp only [List.mem_cons, List.not_mem_nil, or_false]
    omega
  · exact List.all_eq_true.mpr fun s hs => by
      simp [computeAllAux_failures_not_repdigit 10000 0 s hs]

/-- Witness for C4 at the concrete input 1111. -/
theorem compute_all_partition_witness :
    is_repdigit (zfill4 (natToDigits 1111)) = true ↔
      1111 ∈ [0, 1111, 2222, 3333, 4444, 5555, 6666, 7777, 8888, 9999] :=
  compute_all_partition.2.1 1111 (by decide)

/-- C5: "6174" is a fixed point of the Kaprekar step. -/
theorem kaprekar_const_is_fixed : kaprekar_once KAPREKAR_CONST = KAPREKAR_CONST := by decide

/-- C6: on every 4-digit numeral the Kaprekar step outputs a canonical
4-digit numeral whose value is at most 9999; the descending-sorted value
always dominates the ascending-sorted one, so the difference never goes
negative. -/
theorem kaprekar_once_output_canonical :
    ∀ ds : List Nat, ds.length = 4 → (∀ x ∈ ds, x < 10) →
      (kaprekar_once ds).length = 4 ∧ (∀ x ∈ kaprekar_once ds, x < 10) ∧
        digitsToNat (kaprekar_once ds) ≤ 9999 ∧
        digitsToNat (sortAsc (zfill4 ds)) ≤ digitsToNat (sortDesc (zfill4 ds)) :=
  kaprekar_once_shape

/-- Witness for C6 at the concrete input "3524". -/
theorem kaprekar_once_output_canonical_witness :
    (kaprekar_once [3, 5, 2, 4]).length = 4 ∧ (∀ x ∈ kaprekar_once [3, 5, 2, 4], x < 10) ∧
      digitsToNat (kaprekar_once [3, 5, 2, 4]) ≤ 9999 ∧
      digitsToNat (sortAsc (zfill4 [3, 5, 2, 4]))
        ≤ digitsToNat (sortDesc (zfill4 [3, 5, 2, 4])) :=
  kaprekar_once_output_canonical [3, 5, 2, 4] (by decide) (by decide)

/-- C7 is refuted: no iterate of the Kaprekar step ever maps a non-repdigit
4-digit numeral to "0000", so "0000" is not reachable during iteration from
any non-repdigit start. -/
theorem zeros_reachability_refuted :
    ¬ ∃ ds : List Nat, ds.length = 4 ∧ (∀ x ∈ ds, x < 10) ∧ is_repdigit ds = false
        ∧ ∃ k, kaprekar_once^[k] ds = ZEROS := by
  rintro ⟨ds, h4, hd, hrep, k, hk⟩
  exact no_zeros ds h4 hd hrep k hk

/-- C7 amended: "0000" arises only from repdigit starts — one Kaprekar step
maps every 4-digit repdigit to "0000", while from a non-repdigit 4-digit
numeral no iterate ever equals "0000", so the "0000" special case in
`steps_to_kaprekar` never fires for the inputs the driver accepts. -/
theorem zeros_only_from_repdigits :
    ∀ ds : List Nat, ds.length = 4 → (∀ x ∈ ds, x < 10) →
      (is_repdigit ds = true → kaprekar_once ds = ZEROS)
        ∧ (is_repdigit ds = false → ∀ k, kaprekar_once^[k] ds ≠ ZEROS) :=
  fun ds h4 hd => ⟨(iter_master ds h4 hd).1, no_zeros ds h4 hd⟩

/-- Witness for the amended C7 at the repdigit "1111". -/
theorem zeros_only_from_repdigits_witness : kaprekar_once [1, 1, 1, 1] = ZEROS :=
  (zeros_only_from_repdigits [1, 1, 1, 1] (by decide) (by decide)).1 (by decide)

/-- C8: on every non-repdigit 4-digit numeral the value of the Kaprekar step
is strictly below the value of the maximal (descending-sorted) digit
permutation. -/
theorem kaprekar_once_lt_max_permutation :
    ∀ ds : List Nat, ds.length = 4 → (∀ x ∈ ds, x < 10) → is_repdigit ds = false →
      digitsToNat (kaprekar_once ds) < digitsToNat (sortDesc (zfill4 ds)) :=
  kaprekar_once_decrease

/-- Witness for C8 at the concrete input "3524". -/
theorem kaprekar_once_lt_max_permutation_witness :
    digitsToNat (kaprekar_once [3, 5, 2, 4]) < digitsToNat (sortDesc (zfill4 [3, 5, 2, 4])) :=
  kaprekar_once_lt_max_permutation [3, 5, 2, 4] (by decide) (by decide) (by decide)

/-- C9: non-repdigitness is an invariant of the Kaprekar step — the image of
a non-repdigit 4-digit numeral is again a non-repdigit 4-digit numeral, never
"0000", no iterate ever reaches "0000" (so that branch of the driver is
unreachable), and consequently the batch failures list is empty. -/
theorem nonrepdigit_invariant :
    (∀ ds : List Nat, ds.length = 4 → (∀ x ∈ ds, x < 10) → is_repdigit ds = false →
        is_repdigit (kaprekar_once ds) = false ∧ (kaprekar_once ds).length = 4 ∧
          (∀ x ∈ kaprekar_once ds, x < 10) ∧ kaprekar_once ds ≠ ZEROS ∧
          ∀ k, kaprekar_once^[k] ds ≠ ZEROS)
      ∧ compute_all.2 = [] := by
  refine ⟨fun ds h4 hd hrep => ?_, compute_all_failures_nil⟩
  obtain ⟨hl, hd', hv, _⟩ := kaprekar_once_shape ds h4 hd
  refine ⟨((iter_master ds h4 hd).2 hrep).2, hl, hd', ?_, no_zeros ds h4 hd hrep⟩
  have h1 := no_zeros ds h4 hd hrep 1
  simpa using h1

/-- Witness for C9 at the concrete input "1234". -/
theorem nonrepdigit_invariant_witness :
    is_repdigit (kaprekar_once [1, 2, 3, 4]) = false ∧
      (kaprekar_once [1, 2, 3, 4]).length = 4 ∧
      (∀ x ∈ kaprekar_once [1, 2, 3, 4], x < 10) ∧ kaprekar_once [1, 2, 3, 4] ≠ ZEROS ∧
      ∀ k, kaprekar_once^[k] [1, 2, 3, 4] ≠ ZEROS :=
  nonrepdigit_invariant.1 [1, 2, 3, 4] (by decide) (by decide) (by decide)

/-- C10: every input accepted by the interactive tool's validation (4 decimal
digits, not a repdigit) reaches "6174" in at most 7 applications of the loop
body, so the uncapped while loop terminates for every accepted input. -/
theorem interactive_loop_terminates :
    ∀ ds : List Nat, validInput ds = true →
      loopStep^[7] ds = KAPREKAR_CONST ∧ ∃ k, k ≤ 7 ∧ mainLoop 8 ds 0 = some k := by
  intro ds hv
  simp only [validInput, Bool.and_eq_true, beq_iff_eq, List.all_eq_true, decide_eq_true_eq,
    Bool.not_eq_true', beq_eq_false_iff_ne] at hv
  obtain ⟨⟨h4, hd⟩, hrep⟩ := hv
  have hrep' : is_repdigit ds = false := by
    rw [is_repdigit, zfill4_of_length_eq h4]
    simpa using hrep
  have h7 : loopStep^[7] ds = KAPREKAR_CONST := by
    rw [loopStep_iterate_eq 7 ds h4 hd]
    exact ((iter_master ds h4 hd).2 hrep').1
  obtain ⟨k, hk, hml⟩ := mainLoop_some 8 ds 0 7 (by omega) h7
  exact ⟨h7, k, by omega, hml⟩

/-- Witness for C10 at the concrete input "3524". -/
theorem interactive_loop_terminates_witness :
    loopStep^[7] [3, 5, 2, 4] = KAPREKAR_CONST ∧
      ∃ k, k ≤ 7 ∧ mainLoop 8 [3, 5, 2, 4] 0 = some k :=
  interactive_loop_terminates [3, 5, 2, 4] (by decide)
